import Mathlib

/-!
Verification of the multi-agent orchestration core of the codex CLI/TUI.

This file is a shallow embedding, in Lean 4, of the orchestration logic found in

* `codex-rs/core/src/agents.rs`    (agent/team loading, MCP merge policy)
* `codex-rs/core/src/workflows.rs` (workflow definition loading)
* `codex-rs/cli/src/workflow.rs`   (headless workflow runner and session event pump)
* `codex-rs/tui/src/app.rs`        (team router, selector prompt, workflow supervisor)

Pure computations (prompt merging, selector prompt construction, step-table
validation, config composition) are translated directly into Lean functions.
Stateful event-loop fragments (the per-session event pump, the team router's
handling of one intercepted user input, the workflow supervisor's reaction to a
`TaskComplete` event) are translated into explicit state-passing functions over
finite event lists.  Rust `HashMap`s are modelled as partial maps
`String → Option α` together with entry lists for the iteration order of
`into_iter`; file-system reads are modelled by passing the would-be file
contents as `Option` arguments.
-/

namespace Codex

/-- Biased choice on options: keep the first value when present, otherwise take
the second.  Mirrors how a populated map entry shadows a fallback entry. -/
def optOr {α : Type} (a b : Option α) : Option α :=
  match a with
  | some v => some v
  | none => b

/-- Lookup in an association list by key, first match wins.  Used to model
lookups in maps whose entries we carry as lists. -/
def alookup {α : Type} (m : List (String × α)) (k : String) : Option α :=
  match m with
  | [] => none
  | p :: rest => if p.1 = k then some p.2 else alookup rest k

/-- Whitespace trim of a character list on both ends; models Rust `str::trim`. -/
def trimChars (l : List Char) : List Char :=
  ((l.dropWhile Char.isWhitespace).reverse.dropWhile Char.isWhitespace).reverse

/-- Models Rust `str::trim` on a string. -/
def trimString (s : String) : String :=
  String.mk (trimChars s.data)

/-- Models `text.trim_start().starts_with('@')` from the router interception
check in `app.rs`: the first non-whitespace character is `@`. -/
def startsWithTag (text : String) : Bool :=
  match text.data.dropWhile Char.isWhitespace with
  | [] => false
  | c :: _ => c == ('@' : Char)

/-- ASCII lower-casing of one character, as done by Rust `eq_ignore_ascii_case`. -/
def asciiLower (c : Char) : Char :=
  if ('A' : Char) ≤ c ∧ c ≤ ('Z' : Char) then Char.ofNat (c.toNat + 32) else c

/-- Models Rust `str::eq_ignore_ascii_case`. -/
def eqIgnoreAsciiCase (a b : String) : Bool :=
  a.data.map asciiLower == b.data.map asciiLower

/-! ## Protocol model

The conversation protocol (`codex_core::protocol`) is external to the four core
files; the orchestration code only distinguishes the constructors below, so all
remaining event kinds are folded into `other`. -/

/-- The event kinds inspected by the orchestration core.  `taskComplete`
carries `last_agent_message`, `agentMessage` carries the message body. -/
inductive EventMsg : Type
  | taskComplete (last_agent_message : Option String)
  | shutdownComplete
  | agentMessage (message : String)
  | other
deriving DecidableEq, Repr

/-- The operations the orchestration core submits to a conversation. -/
inductive Op : Type
  | userInput (text : String)
  | shutdown
deriving DecidableEq, Repr

/-- Boolean recognizers used in counting arguments. -/
def isTaskCompleteB : EventMsg → Bool
  | EventMsg.taskComplete _ => true
  | _ => false

def isShutdownCompleteB : EventMsg → Bool
  | EventMsg.shutdownComplete => true
  | _ => false

def isUserInputOp : Op → Bool
  | Op.userInput _ => true
  | _ => false

def isShutdownOp : Op → Bool
  | Op.shutdown => true
  | _ => false

/-! ## Session event pump (`run_step_with_config`, `cli/src/workflow.rs` 218-248)

The drain loop receives forwarded events in order.  For each received event it
submits `Op::Shutdown` if the event is `TaskComplete`, and breaks after
processing a `ShutdownComplete`.  We model the loop over the finite list of
events the reader thread forwards, returning the ops submitted during the
drain, the events actually consumed, and the recorded last message. -/

/-- Ops submitted by the drain loop of `run_step_with_config`, in order. -/
def drain_ops : List EventMsg → List Op
  | [] => []
  | EventMsg.taskComplete _ :: rest => Op.shutdown :: drain_ops rest
  | EventMsg.shutdownComplete :: _ => []
  | _ :: rest => drain_ops rest

/-- Events consumed (received from the channel) by the drain loop. -/
def drain_consumed : List EventMsg → List EventMsg
  | [] => []
  | EventMsg.shutdownComplete :: _ => [EventMsg.shutdownComplete]
  | e :: rest => e :: drain_consumed rest

/-- The `last_message` recorded by the drain loop. -/
def drain_last (acc : Option String) : List EventMsg → Option String
  | [] => acc
  | EventMsg.taskComplete m :: rest => drain_last m rest
  | EventMsg.shutdownComplete :: _ => acc
  | _ :: rest => drain_last acc rest

/-- All ops `run_step_with_config` submits to the conversation: the initial
`UserInput` with the step prompt, then whatever the drain loop submits. -/
def run_step_ops (prompt : String) (events : List EventMsg) : List Op :=
  Op.userInput prompt :: drain_ops events

/-! ## MCP merge policy (`load_agent`, `core/src/agents.rs` 121-142)

The effective MCP server map starts from the inline `mcp_servers` of the agent
config; if an `mcp.toml` exists and parses, its entries are inserted (`insert`,
overriding same-name inline entries); if `inherit_mcp_from_project` is set,
project entries are added with `entry(k).or_insert(v)` (kept only for names not
already present).  Maps are modelled as `String → Option α`; the iteration of
`into_iter` over a parsed `HashMap` is modelled by an entry list whose keys are
distinct (a `HashMap` holds each key once). -/

/-- Models `HashMap::insert`: the new value replaces any entry with the key. -/
def insert_override {α : Type} (m : String → Option α) (k : String) (v : α) :
    String → Option α :=
  fun q => if q = k then some v else m q

/-- Models `HashMap::entry(k).or_insert(v)`: inserted only when absent. -/
def entry_or_insert {α : Type} (m : String → Option α) (k : String) (v : α) :
    String → Option α :=
  fun q => if q = k then (match m k with | some w => some w | none => some v) else m q

/-- The effective MCP map computed by `load_agent`.  `inline` is the agent
config's inline `mcp_servers` map; `mcp_toml` is `some entries` when the file
`mcp.toml` exists and parses into that entry list, otherwise `none`;
`inherit` is `inherit_mcp_from_project`; `project` is the entry list of the
project config's `mcp_servers`. -/
def load_agent_mcp {α : Type} (inline : String → Option α)
    (mcp_toml : Option (List (String × α))) (inherit : Bool)
    (project : List (String × α)) : String → Option α :=
  let mcp := inline
  let mcp := match mcp_toml with
    | some entries => entries.foldl (fun acc kv => insert_override acc kv.1 kv.2) mcp
    | none => mcp
  if inherit then project.foldl (fun acc kv => entry_or_insert acc kv.1 kv.2) mcp
  else mcp

/-- Written from the spec's words (§4.2/§8): start from inline, let `mcp.toml`
entries override inline entries with the same name, then, iff the inherit flag
is set, add project entries for any name not already present. -/
def mcp_merge_spec {α : Type} (inline : String → Option α)
    (mcp_toml : Option (List (String × α))) (inherit : Bool)
    (project : List (String × α)) : String → Option α :=
  let ov : String → Option α := fun q =>
    match mcp_toml with
    | some entries => optOr (alookup entries q) (inline q)
    | none => inline q
  if inherit then fun q => optOr (ov q) (alookup project q) else ov

/-! ## Workflow definition loading (`load_workflow`, `core/src/workflows.rs` 79-103)

After the TOML text parses into a `WorkflowToml` (a `steps` key list plus a
`step` table), the loader walks the key list in order, resolves each key in the
table, maps the `type` string to a step kind and fails on the first undefined
key or unsupported type. -/

/-- Step body as parsed from `[step.<key>]`. -/
structure WorkflowStepToml : Type where
  type : String
  id : String
  prompt : Option String
  max_turns : Option Nat
deriving DecidableEq, Repr

/-- Step kinds recognized by the loader. -/
inductive StepKind : Type
  | agent
  | team
deriving DecidableEq, Repr

/-- Resolved workflow step carried by `WorkflowDefinition.steps`. -/
structure WorkflowStep : Type where
  kind : StepKind
  id : String
  prompt : Option String
  max_turns : Option Nat
deriving DecidableEq, Repr

/-- Error message for a `steps` key with no `[step.<key>]` table entry. -/
def undefined_step_msg (key : String) : String :=
  ("workflow step \x27") ++ key ++ ("\x27 not defined in [step.*]")

/-- Error message for a step whose `type` is neither `agent` nor `team`. -/
def unsupported_type_msg (ty : String) (key : String) : String :=
  ("unsupported step type \x27") ++ ty ++ ("\x27 for step \x27") ++ key ++ ("\x27")

/-- The step-resolution loop of `load_workflow`: `tbl` is the entry list of the
parsed `step` table, `keys` is the `steps` list.  Fails at the first key that
is undefined or has an unsupported type. -/
def build_steps (tbl : List (String × WorkflowStepToml)) :
    List String → Except String (List WorkflowStep)
  | [] => Except.ok []
  | key :: rest =>
    match alookup tbl key with
    | none => Except.error (undefined_step_msg key)
    | some st =>
      if st.type = ("agent") then
        match build_steps tbl rest with
        | Except.ok tail =>
          Except.ok ({ kind := StepKind.agent, id := st.id, prompt := st.prompt,
                       max_turns := st.max_turns } :: tail)
        | Except.error e => Except.error e
      else if st.type = ("team") then
        match build_steps tbl rest with
        | Except.ok tail =>
          Except.ok ({ kind := StepKind.team, id := st.id, prompt := st.prompt,
                       max_turns := st.max_turns } :: tail)
        | Except.error e => Except.error e
      else Except.error (unsupported_type_msg st.type key)

/-- True when the table entry for a key exists and has a supported type. -/
def good_entry : Option WorkflowStepToml → Bool
  | some st => st.type == ("agent") || st.type == ("team")
  | none => false

/-- The resolved step a good key maps to (default value for missing keys is
never reached under the success hypothesis). -/
def step_of_key (tbl : List (String × WorkflowStepToml)) (key : String) :
    WorkflowStep :=
  match alookup tbl key with
  | some st =>
    { kind := if st.type = ("team") then StepKind.team else StepKind.agent,
      id := st.id, prompt := st.prompt, max_turns := st.max_turns }
  | none => { kind := StepKind.agent, id := key, prompt := none, max_turns := none }

/-- Boolean failure recognizer for `build_steps` results. -/
def isErrB : Except String (List WorkflowStep) → Bool
  | Except.error _ => true
  | Except.ok _ => false

/-! ## Config composition

The session `Config` lives in `core/src/config.rs`, outside the orchestration
files; the orchestration code treats it as a record and mutates exactly the
fields below (spec §3, "Composed Session Config").  `ModelProviderInfo` and
`McpServerCfg` payloads are opaque to the orchestration code, so they are
carried as one-field records. -/

/-- Provider payload stored in `Config.model_providers`; its fields are never
inspected by the orchestration code, only copied. -/
structure ModelProviderInfo : Type where
  name : String
deriving DecidableEq, Repr

/-- MCP server payload; never inspected by the orchestration code. -/
structure McpServerCfg : Type where
  command : String
deriving DecidableEq, Repr

/-- The slice of the session `Config` read or written by the orchestration
code. -/
structure Config : Type where
  model : String
  model_provider_id : String
  model_provider : ModelProviderInfo
  model_providers : List (String × ModelProviderInfo)
  include_plan_tool : Bool
  include_apply_patch_tool : Bool
  base_instructions : Option String
  mcp_servers : List (String × McpServerCfg)
deriving DecidableEq, Repr

/-- Per-step override data derived from the loaded agent (and team/step
prompts) in `run_workflow`, `cli/src/workflow.rs` 129-170. -/
structure StepComposeInput : Type where
  model_override : Option String
  provider_override : Option String
  include_plan : Option Bool
  include_apply : Option Bool
  mcp_servers : List (String × McpServerCfg)
  combined_prompt : String
deriving DecidableEq, Repr

/-- The team-step prompt derivation of `run_workflow`,
`cli/src/workflow.rs` 151-159: match on (team prompt, agent prompt, step
prompt) and `unwrap_or_default`. -/
def team_step_combined_prompt (team_prompt agent_prompt step_prompt : Option String) :
    String :=
  (match team_prompt, agent_prompt, step_prompt with
   | _, _, some p => some p
   | some t, some a, none => some (t ++ ("\n\n") ++ a)
   | some t, none, none => some t
   | none, some a, none => some a
   | none, none, none => none).getD ("")

/-- Written from the spec's words: the §4.4 priority table.  `step` wins when
present; else both prompts joined by a blank line; else whichever is present;
else the empty string. -/
def prompt_priority_spec (step team agent : Option String) : String :=
  match step with
  | some p => p
  | none =>
    match team, agent with
    | some t, some a => t ++ ("\n\n") ++ a
    | some t, none => t
    | none, some a => a
    | none, none => ("")

/-- Per-step config derivation of `run_workflow`, `cli/src/workflow.rs`
172-187: clone the base config, then apply model, provider (only when the id
is present in the base provider map), tool flags, `base_instructions`
(always set to the combined prompt) and the agent's effective MCP map. -/
def run_workflow_step_config (base : Config) (s : StepComposeInput) : Config :=
  let c1 := match s.model_override with
    | some m => { base with model := m }
    | none => base
  let c2 := match s.provider_override with
    | some provider_id =>
      match alookup c1.model_providers provider_id with
      | some info => { c1 with model_provider_id := provider_id, model_provider := info }
      | none => c1
    | none => c1
  let c3 := match s.include_plan with
    | some v => { c2 with include_plan_tool := v }
    | none => c2
  let c4 := match s.include_apply with
    | some v => { c3 with include_apply_patch_tool := v }
    | none => c3
  { c4 with base_instructions := some s.combined_prompt, mcp_servers := s.mcp_servers }

/-- The `base_instructions` stage of the `SwitchToAgent` agent branch,
`tui/src/app.rs` 589-600: while a team context is active combine its prompt
with the agent prompt, otherwise use the agent prompt; leave the field
untouched when the combination is absent. -/
def apply_prompt_stage (c : Config) (team_ctx_prompt : Option (Option String))
    (agent_prompt : Option String) : Config :=
  match team_ctx_prompt with
  | some tp =>
    match (match tp, agent_prompt with
           | some t, some a => some (t ++ ("\n\n") ++ a)
           | some t, none => some t
           | none, some a => some a
           | none, none => none) with
    | some p => { c with base_instructions := some p }
    | none => c
  | none =>
    match agent_prompt with
    | some p => { c with base_instructions := some p }
    | none => c

/-- Config derivation of the `SwitchToAgent` agent branch in `App::run`,
`tui/src/app.rs` 576-601.  `team_ctx_prompt` is `some tp` when a team context
is active (with team prompt `tp`), `none` otherwise. -/
def switch_to_agent_config (base : Config) (agent_model : Option String)
    (agent_provider : Option String) (agent_apply agent_plan : Option Bool)
    (agent_prompt : Option String) (team_ctx_prompt : Option (Option String))
    (agent_mcp : List (String × McpServerCfg)) : Config :=
  let c1 := match agent_model with
    | some m => { base with model := m }
    | none => base
  let c2 := match agent_provider with
    | some provider_id =>
      match alookup c1.model_providers provider_id with
      | some info => { c1 with model_provider_id := provider_id, model_provider := info }
      | none => c1
    | none => c1
  let c3 := match agent_apply with
    | some v => { c2 with include_apply_patch_tool := v }
    | none => c2
  let c4 := match agent_plan with
    | some v => { c3 with include_plan_tool := v }
    | none => c3
  let c5 := apply_prompt_stage c4 team_ctx_prompt agent_prompt
  { c5 with mcp_servers := agent_mcp }

/-! ## Team router (`App::run` CodexOp interception, `tui/src/app.rs` 631-723)

When a `CodexOp(UserInput)` arrives while a team context is active and the
first item is text not starting (after leading whitespace) with `@`, the
router handles it instead of the chat widget: it first checks the `max_turns`
gate, then branches on the team mode (selector vs round-robin).  The selector
branch spawns an auxiliary conversation and leaves the context untouched; the
round-robin branch dispatches to the member at `next_idx % len` and advances
`next_idx` and `turns_taken`. -/

/-- Runtime team context (`TeamContext` struct in `tui/src/app.rs`). -/
structure TeamContext : Type where
  name : String
  prompt : Option String
  members : List String
  mode : Option String
  next_idx : Nat
  turns_taken : Nat
  max_turns : Option Nat
  selector_model : Option String
  selector_prompt : Option String
  allow_repeated_speaker : Bool
deriving DecidableEq, Repr

/-- Outcome of the router's handling of one intercepted user input.
`forward` means not intercepted (tagged input handed to the chat widget);
`info` is a history info line with no dispatch; `dispatchSwitch` is a
`SwitchToAgent` app event; `selectorSpawn` is the spawned auxiliary selector
conversation given its model, the built selector prompt and the original user
message. -/
inductive RouterResult : Type
  | forward
  | info (msg : String)
  | dispatchSwitch (name : String) (initial_prompt : String)
  | selectorSpawn (model : String) (built_prompt : String) (message : String)
deriving DecidableEq, Repr

/-- Default selector prompt literal from `build_selector_prompt`. -/
def default_selector_prompt : String :=
  "You are a team orchestrator. Given the user message and the list of candidates, choose exactly one candidate to handle the next step.\n\nReturn ONLY the candidate name, exactly as shown in the list. No explanations."

/-- Direct translation of `build_selector_prompt`, `tui/src/app.rs` 1141-1175.
The sequence of `push_str` calls is rendered as one concatenation. -/
def build_selector_prompt (team_name : String) (candidates : List String)
    (selector_prompt : Option String) (user_message : String)
    (allow_repeated : Bool) (last_speaker : Option String) : String :=
  let base := selector_prompt.getD default_selector_prompt
  base ++ ("\n\nTeam: ") ++ team_name ++ ("\nUser Message:\n") ++ user_message
    ++ ("\n\nCandidates:\n")
    ++ String.join (candidates.map (fun c => ("- ") ++ c ++ ("\n")))
    ++ ("\nPolicy:\n")
    ++ (if allow_repeated = false then
          ("- Do not choose the same speaker twice in a row.\n")
          ++ (match last_speaker with
              | some last => ("- The last speaker was: ") ++ last ++ ("\n")
              | none => (""))
        else (""))
    ++ ("\nAnswer with exactly one candidate name from the list above.\n")

/-- Written from the spec's words (§6 template): the repeat-speaker line
appears exactly when `allow_repeated` is false, and the last-speaker line
appears exactly when the last speaker is known — as two independent
conditions. -/
def selector_prompt_spec (team_name : String) (candidates : List String)
    (selector_prompt : Option String) (user_message : String)
    (allow_repeated : Bool) (last_speaker : Option String) : String :=
  let base := selector_prompt.getD default_selector_prompt
  base ++ ("\n\nTeam: ") ++ team_name ++ ("\nUser Message:\n") ++ user_message
    ++ ("\n\nCandidates:\n")
    ++ String.join (candidates.map (fun c => ("- ") ++ c ++ ("\n")))
    ++ ("\nPolicy:\n")
    ++ (if allow_repeated = false then
          ("- Do not choose the same speaker twice in a row.\n")
        else (""))
    ++ (match last_speaker with
        | some last => ("- The last speaker was: ") ++ last ++ ("\n")
        | none => (""))
    ++ ("\nAnswer with exactly one candidate name from the list above.\n")

/-- Info line of the `max_turns` gate. -/
def gate_message (name : String) (limit : Nat) : String :=
  ("Team \x27") ++ name ++ ("\x27 reached max_turns=") ++ toString limit

/-- The `max_turns` termination check (`tui/src/app.rs` 640-646): returns the
limit when it is set and already reached. -/
def gate_limit_hit (tc : TeamContext) : Option Nat :=
  match tc.max_turns with
  | some limit => if tc.turns_taken ≥ limit then some limit else none
  | none => none

/-- Mode selection and routing (`tui/src/app.rs` 648-718), reached when the
gate is open. -/
def route_select (tc : TeamContext) (text : String) : RouterResult × TeamContext :=
  let mode := tc.mode.getD ("round_robin")
  if eqIgnoreAsciiCase mode ("selector") then
    match tc.selector_model with
    | none => (RouterResult.info ("Selector model not configured for team"), tc)
    | some selector_model =>
      let last_idx := if tc.next_idx = 0 then tc.members.length - 1 else tc.next_idx - 1
      let last_speaker := tc.members.get? last_idx
      (RouterResult.selectorSpawn selector_model
        (build_selector_prompt tc.name tc.members tc.selector_prompt text
          tc.allow_repeated_speaker last_speaker) text, tc)
  else
    if tc.members.isEmpty then (RouterResult.info ("Team has no members"), tc)
    else
      let len := tc.members.length
      let idx := tc.next_idx % len
      let member := (tc.members.get? idx).getD (tc.members.headD (""))
      (RouterResult.dispatchSwitch member text,
       { tc with next_idx := (tc.next_idx + 1) % len, turns_taken := tc.turns_taken + 1 })

/-- One intercepted user input while a team context is active
(`tui/src/app.rs` 637-719). -/
def router_step (tc : TeamContext) (text : String) : RouterResult × TeamContext :=
  if startsWithTag text then (RouterResult.forward, tc)
  else
    match gate_limit_hit tc with
    | some limit => (RouterResult.info (gate_message tc.name limit), tc)
    | none => route_select tc text

/-- Iterated routing of a sequence of user inputs through the same team
context. -/
def router_run (tc : TeamContext) : List String → List RouterResult × TeamContext
  | [] => ([], tc)
  | t :: ts =>
    let r := router_step tc t
    let rest := router_run r.2 ts
    (r.1 :: rest.1, rest.2)

/-- App events produced by the workflow supervisor and the spawned selector
task. -/
inductive AppAction : Type
  | switchToAgent (name : String) (initial_prompt : Option String)
  | infoLine (msg : String)
  | requestRedraw
deriving DecidableEq, Repr

/-- The spawned selector task (`tui/src/app.rs` 676-700): submit the built
prompt, take the first `AgentMessage` from the auxiliary conversation, trim it
and dispatch `SwitchToAgent` with the original message as initial prompt; if
the stream ends without an `AgentMessage`, emit the no-choice info line. -/
def selector_task_outcome (events : List EventMsg) (message : String) : AppAction :=
  match events.findSome? (fun e =>
      match e with
      | EventMsg.agentMessage m => some m
      | _ => none) with
  | some m => AppAction.switchToAgent (trimString m) (some message)
  | none => AppAction.infoLine ("Selector returned no choice")

/-! ## Workflow supervisor (UI) (`tui/src/app.rs` 276-307, 415-423)

While a workflow context is active, every `CodexEvent` carrying `TaskComplete`
advances the workflow: the index is incremented; if it is still below the step
count the next step is started, otherwise the context is dropped and a
completion info line is emitted. -/

/-- Runtime workflow step (`WorkflowStepRuntime` in `tui/src/app.rs`); the
kind is carried as a string. -/
structure WorkflowStepRuntime : Type where
  kind : String
  id : String
  prompt : Option String
deriving DecidableEq, Repr

/-- Runtime workflow context (`WorkflowContext` in `tui/src/app.rs`). -/
structure WorkflowContext : Type where
  name : String
  steps : List WorkflowStepRuntime
  index : Nat
deriving DecidableEq, Repr

/-- `App::start_current_workflow_step` (`tui/src/app.rs` 276-293) as the list
of app events it sends. -/
def start_current_workflow_step : Option WorkflowContext → List AppAction
  | none => []
  | some ctx =>
    if h : ctx.index < ctx.steps.length then
      let step := ctx.steps.get ⟨ctx.index, h⟩
      if step.kind = ("agent") then [AppAction.switchToAgent step.id step.prompt]
      else if step.kind = ("team") then [AppAction.switchToAgent step.id step.prompt]
      else
        [AppAction.infoLine (("Unsupported step kind: ") ++ step.kind),
         AppAction.requestRedraw]
    else []

/-- Completion info line emitted when the workflow context clears. -/
def workflow_completed_msg (name : String) : String :=
  ("Workflow \x27") ++ name ++ ("\x27 completed")

/-- `App::advance_workflow` (`tui/src/app.rs` 295-307): increment the index,
start the next step while in range, otherwise clear the context and emit the
completion line (followed by a redraw request). -/
def advance_workflow : Option WorkflowContext → Option WorkflowContext × List AppAction
  | none => (none, [])
  | some ctx =>
    let ctx1 : WorkflowContext := { ctx with index := ctx.index + 1 }
    if ctx1.index < ctx1.steps.length then
      (some ctx1, start_current_workflow_step (some ctx1))
    else
      (none, [AppAction.infoLine (workflow_completed_msg ctx.name),
              AppAction.requestRedraw])

/-- The `CodexEvent` interception (`tui/src/app.rs` 415-423): only
`TaskComplete` while a workflow context is active advances the workflow. -/
def on_codex_event (ctx : Option WorkflowContext) (msg : EventMsg) :
    Option WorkflowContext × List AppAction :=
  match msg with
  | EventMsg.taskComplete _ =>
    match ctx with
    | some _ => advance_workflow ctx
    | none => (none, [])
  | _ => (ctx, [])

/-- Iterated handling of `n` `TaskComplete` events. -/
def iter_task_complete : Option WorkflowContext → Nat → Option WorkflowContext × List AppAction
  | c, 0 => (c, [])
  | c, Nat.succ n =>
    let r1 := on_codex_event c (EventMsg.taskComplete none)
    let r2 := iter_task_complete r1.1 n
    (r2.1, r1.2 ++ r2.2)

/-- Boolean recognizer for info lines among app actions. -/
def isInfoAction : AppAction → Bool
  | AppAction.infoLine _ => true
  | _ => false

/-- Number of round-robin dispatches to a given member name in a router result
sequence. -/
def count_dispatch_to (name : String) (rs : List RouterResult) : Nat :=
  rs.countP (fun r =>
    match r with
    | RouterResult.dispatchSwitch n _ => n == name
    | _ => false)

/-- Team context of scenario S5 (spec §8): members `[a, b, c]`, round-robin,
`next_idx = 2`, no turn limit. -/
def s5_team : TeamContext :=
  { name := "abc", prompt := none, members := ["a", "b", "c"],
    mode := some ("round_robin"), next_idx := 2, turns_taken := 0,
    max_turns := none, selector_model := none, selector_prompt := none,
    allow_repeated_speaker := false }

/-- Selector-mode team context with `max_turns = 1`, used to probe the
`max_turns` gate under selector routing. -/
def c2_sel_team : TeamContext :=
  { name := "dev-team", prompt := none, members := ["a", "b"],
    mode := some ("selector"), next_idx := 0, turns_taken := 0,
    max_turns := some 1, selector_model := some ("S"),
    selector_prompt := some ("P"), allow_repeated_speaker := false }

/-- Round-robin team context with `max_turns = 1`, scenario S6 (spec §8). -/
def s6_team : TeamContext :=
  { name := "dev-team", prompt := none, members := ["a"],
    mode := some ("round_robin"), next_idx := 0, turns_taken := 0,
    max_turns := some 1, selector_model := none, selector_prompt := none,
    allow_repeated_speaker := false }

/-- Concrete base config used to instantiate theorems with hypotheses. -/
def c9_base : Config :=
  { model := "gpt-base", model_provider_id := "openai",
    model_provider := { name := "OpenAI" },
    model_providers := [("openai", { name := "OpenAI" })],
    include_plan_tool := false, include_apply_patch_tool := false,
    base_instructions := none, mcp_servers := [] }

/-- Concrete step-compose input whose requested provider id is absent from
`c9_base.model_providers`. -/
def c9_step : StepComposeInput :=
  { model_override := some ("claude"), provider_override := some ("azure"),
    include_plan := some true, include_apply := none,
    mcp_servers := [("srv", { command := "run" })],
    combined_prompt := "do it" }

/-- Concrete inline MCP map used to instantiate the merge-policy theorem. -/
def c4_inline : String → Option Nat :=
  fun q => if q = ("a") then some 1 else if q = ("c") then some 7 else none

/-- Concrete `mcp.toml` entry list used to instantiate the merge-policy
theorem. -/
def c4_toml : List (String × Nat) := [("a", 2), ("b", 3)]

/-- Concrete project MCP entry list used to instantiate the merge-policy
theorem. -/
def c4_project : List (String × Nat) := [("a", 9), ("d", 4)]

/-- Concrete workflow step table used to instantiate the loader theorem. -/
def c8_tbl : List (String × WorkflowStepToml) :=
  [("plan", { type := "team", id := "dev-team", prompt := some ("Draft a short plan."),
              max_turns := some 1 }),
   ("implement", { type := "agent", id := "dev",
                   prompt := some ("Implement the plan."), max_turns := some 1 }),
   ("bogus", { type := "robot", id := "dev", prompt := none, max_turns := none })]

/-- Concrete workflow context used to instantiate the supervisor theorem. -/
def c7_ctx : WorkflowContext :=
  { name := "sample",
    steps := [{ kind := "team", id := "dev-team", prompt := some ("Draft a short plan.") },
              { kind := "agent", id := "dev", prompt := some ("Implement the plan.") }],
    index := 0 }

/-- Selector-mode team context used to instantiate the frame theorem
(scenario S4: members `[a, b]`, last speaker `a`). -/
def s4_team : TeamContext :=
  { name := "dev-team", prompt := none, members := ["a", "b"],
    mode := some ("selector"), next_idx := 1, turns_taken := 0,
    max_turns := none, selector_model := some ("S"),
    selector_prompt := some ("P"), allow_repeated_speaker := false }

/-! ## Theorems: session event pump -/

theorem countP_drain_ops_user (events : List EventMsg) :
    (drain_ops events).countP isUserInputOp = 0 := by
  induction events with
  | nil => rfl
  | cons e rest ih =>
    cases e <;> simp [drain_ops, isUserInputOp, List.countP_cons, ih]

theorem countP_drain_ops_shutdown (events : List EventMsg) :
    (drain_ops events).countP isShutdownOp
      = (drain_consumed events).countP isTaskCompleteB := by
  induction events with
  | nil => rfl
  | cons e rest ih =>
    cases e <;>
      simp [drain_ops, drain_consumed, isShutdownOp, isTaskCompleteB,
            List.countP_cons, ih]

theorem drain_consumed_no_shutdown (events : List EventMsg)
    (h : EventMsg.shutdownComplete ∉ events) : drain_consumed events = events := by
  induction events with
  | nil => rfl
  | cons e rest ih =>
    rw [List.mem_cons, not_or] at h
    cases e <;> simp [drain_consumed] <;>
      first
      | exact ih h.2
      | exact absurd rfl h.1

theorem drain_consumed_stops (pre post : List EventMsg)
    (hpre : EventMsg.shutdownComplete ∉ pre) :
    drain_consumed (pre ++ EventMsg.shutdownComplete :: post)
      = pre ++ [EventMsg.shutdownComplete] := by
  induction pre with
  | nil => rfl
  | cons e pre ih =>
    rw [List.mem_cons, not_or] at hpre
    cases e <;> simp [drain_consumed] <;>
      first
      | exact ih hpre.2
      | exact absurd rfl hpre.1

/-- C1 (amended): for every event sequence forwarded to the drain loop of
`run_step_with_config`, exactly one `UserInput` is submitted; the number of
`Shutdown` submissions equals the number of `TaskComplete` events the loop
consumes (so it is one exactly when the consumed prefix holds one
`TaskComplete`, but grows with repeated `TaskComplete`s); and the loop
consumes exactly the prefix of the stream up to and including the first
`ShutdownComplete` — no later event is consumed — consuming everything when
no `ShutdownComplete` arrives. -/
theorem run_step_pump_characterization (prompt : String) (events : List EventMsg) :
    (run_step_ops prompt events).countP isUserInputOp = 1
    ∧ (run_step_ops prompt events).countP isShutdownOp
        = (drain_consumed events).countP isTaskCompleteB
    ∧ (EventMsg.shutdownComplete ∉ events → drain_consumed events = events)
    ∧ (∀ pre post, events = pre ++ EventMsg.shutdownComplete :: post →
        EventMsg.shutdownComplete ∉ pre →
        drain_consumed events = pre ++ [EventMsg.shutdownComplete]) := by
  refine ⟨?_, ?_, drain_consumed_no_shutdown events, ?_⟩
  · simp [run_step_ops, List.countP_cons, isUserInputOp, countP_drain_ops_user]
  · simp [run_step_ops, List.countP_cons, isShutdownOp, countP_drain_ops_shutdown]
  · intro pre post he hpre
    rw [he]
    exact drain_consumed_stops pre post hpre

/-- Witness for `run_step_pump_characterization` at a concrete stream with one
`TaskComplete` followed by `ShutdownComplete` and a trailing event: one
`UserInput`, and the consumed prefix stops at the `ShutdownComplete`. -/
theorem run_step_pump_characterization_witness :
    (run_step_ops ("p") ([EventMsg.taskComplete (some ("ok")),
        EventMsg.shutdownComplete, EventMsg.taskComplete none])).countP isUserInputOp = 1
    ∧ drain_consumed ([EventMsg.taskComplete (some ("ok")),
        EventMsg.shutdownComplete, EventMsg.taskComplete none])
        = [EventMsg.taskComplete (some ("ok"))] ++ [EventMsg.shutdownComplete] := by
  have h := run_step_pump_characterization ("p")
    ([EventMsg.taskComplete (some ("ok")), EventMsg.shutdownComplete,
      EventMsg.taskComplete none])
  exact ⟨h.1, h.2.2.2 ([EventMsg.taskComplete (some ("ok"))])
    ([EventMsg.taskComplete none]) rfl (by decide)⟩

/-- C1 counterexample: on a stream with two `TaskComplete` events before
`ShutdownComplete`, the pump submits two `Shutdown` ops, not exactly one. -/
theorem run_step_pump_counterexample :
    ¬ ((run_step_ops ("go") ([EventMsg.taskComplete none, EventMsg.taskComplete none,
          EventMsg.shutdownComplete])).countP isShutdownOp = 1)
    ∧ (run_step_ops ("go") ([EventMsg.taskComplete none, EventMsg.taskComplete none,
          EventMsg.shutdownComplete])).countP isShutdownOp = 2 := by
  decide

/-! ## Theorems: team-step prompt priority -/

/-- C5: the team-step prompt derived by the headless runner agrees with the
§4.4 priority table on every combination of present and absent prompts, and
the per-step config carries it as `base_instructions`. -/
theorem team_step_prompt_priority (t a s : Option String) (base : Config)
    (inp : StepComposeInput) :
    team_step_combined_prompt t a s = prompt_priority_spec s t a
    ∧ (run_workflow_step_config base
         { inp with combined_prompt := team_step_combined_prompt t a s }).base_instructions
        = some (team_step_combined_prompt t a s) := by
  constructor
  · cases t <;> cases a <;> cases s <;> rfl
  · rfl

/-! ## Theorems: selector prompt template -/

/-- C3 (amended): the prompt built by `build_selector_prompt` equals the §6
template in which the last-speaker line is kept only when
`allow_repeated_speaker` is false: when `allow_repeated` is false the built
prompt matches the spec template verbatim, and when it is true the built
prompt matches the spec template with the last speaker dropped (the code
nests the last-speaker line under the `allow_repeated` check, the spec
template does not). -/
theorem selector_prompt_template (team_name : String) (candidates : List String)
    (sp : Option String) (user_message : String) (ar : Bool)
    (last : Option String) :
    build_selector_prompt team_name candidates sp user_message ar last
      = selector_prompt_spec team_name candidates sp user_message ar
          (if ar then none else last) := by
  have hemp : ("" : String).data = [] := rfl
  cases ar <;> cases last <;> apply String.ext <;>
    simp [build_selector_prompt, selector_prompt_spec, String.data_append,
          List.append_assoc, hemp]

/-- C3 counterexample: with `allow_repeated_speaker = true` and a known last
speaker, the built prompt differs from the §6 template (the last-speaker line
is omitted). -/
theorem selector_prompt_counterexample :
    build_selector_prompt ("t") (["a", "b"]) (some ("P")) ("m") true (some ("a"))
      ≠ selector_prompt_spec ("t") (["a", "b"]) (some ("P")) ("m") true (some ("a")) := by
  decide

/-! ## Theorems: MCP merge policy -/

theorem alookup_eq_none {α : Type} (entries : List (String × α)) (q : String)
    (h : q ∉ entries.map Prod.fst) : alookup entries q = none := by
  induction entries with
  | nil => rfl
  | cons kv rest ih =>
    rw [List.map_cons, List.mem_cons, not_or] at h
    rw [alookup, if_neg (fun he => h.1 he.symm)]
    exact ih h.2

theorem fold_insert_override_lookup {α : Type} (entries : List (String × α))
    (m : String → Option α) (q : String)
    (hnd : (entries.map Prod.fst).Nodup) :
    entries.foldl (fun acc kv => insert_override acc kv.1 kv.2) m q
      = optOr (alookup entries q) (m q) := by
  induction entries generalizing m with
  | nil => simp [alookup, optOr]
  | cons kv rest ih =>
    rw [List.map_cons, List.nodup_cons] at hnd
    rw [List.foldl_cons, ih _ hnd.2]
    by_cases hq : q = kv.1
    · subst hq
      rw [alookup_eq_none rest kv.1 hnd.1]
      simp [alookup, insert_override, optOr]
    · have hq2 : ¬ kv.1 = q := fun he => hq he.symm
      simp [alookup, insert_override, optOr, hq, hq2]

theorem fold_or_insert_lookup {α : Type} (entries : List (String × α))
    (m : String → Option α) (q : String) :
    entries.foldl (fun acc kv => entry_or_insert acc kv.1 kv.2) m q
      = optOr (m q) (alookup entries q) := by
  induction entries generalizing m with
  | nil => cases hm : m q <;> simp [alookup, optOr, hm]
  | cons kv rest ih =>
    rw [List.foldl_cons, ih]
    by_cases hq : q = kv.1
    · subst hq
      cases hm : m kv.1 <;>
        simp [alookup, entry_or_insert, optOr, hm]
    · have hq2 : ¬ kv.1 = q := fun he => hq he.symm
      simp [alookup, entry_or_insert, optOr, hq, hq2]

/-- C4: for every inline map, `mcp.toml` contents, project map and value of
`inherit_mcp_from_project`, the effective MCP map computed by `load_agent`
equals the spec formula: `mcp.toml` overrides inline, and project entries are
added only for absent names exactly when the inherit flag is set — so
same-name collisions always resolve agent-side. -/
theorem mcp_merge_policy {α : Type} (inline : String → Option α)
    (mcp_toml : Option (List (String × α))) (inherit : Bool)
    (project : List (String × α)) (q : String)
    (hnd : ∀ entries, mcp_toml = some entries → (entries.map Prod.fst).Nodup) :
    load_agent_mcp inline mcp_toml inherit project q
      = mcp_merge_spec inline mcp_toml inherit project q := by
  cases mcp_toml with
  | none =>
    cases inherit <;>
      simp [load_agent_mcp, mcp_merge_spec, fold_or_insert_lookup]
  | some entries =>
    have h := hnd entries rfl
    cases inherit <;>
      simp [load_agent_mcp, mcp_merge_spec, fold_or_insert_lookup,
            fold_insert_override_lookup entries inline q h]

/-- Witness for `mcp_merge_policy` at concrete maps: inline `{a≔1, c≔7}`,
`mcp.toml` `{a≔2, b≔3}`, project `{a≔9, d≔4}`, inherit on, queried at `a`
(the agent-side value 2 wins). -/
theorem mcp_merge_policy_witness :
    (∀ entries, (some c4_toml : Option (List (String × Nat))) = some entries →
        (entries.map Prod.fst).Nodup)
    ∧ load_agent_mcp c4_inline (some c4_toml) true c4_project ("a")
        = mcp_merge_spec c4_inline (some c4_toml) true c4_project ("a")
    ∧ load_agent_mcp c4_inline (some c4_toml) true c4_project ("a") = some 2 := by
  have hnd : ∀ entries, (some c4_toml : Option (List (String × Nat))) = some entries →
      (entries.map Prod.fst).Nodup := by
    intro entries he
    injection he with h2
    subst h2
    decide
  exact ⟨hnd, mcp_merge_policy c4_inline (some c4_toml) true c4_project ("a") hnd,
    by decide⟩

/-! ## Theorems: provider override is non-fatal and frame-preserving -/

theorem apply_prompt_stage_frame (c : Config) (tp : Option (Option String))
    (ap : Option String) :
    (apply_prompt_stage c tp ap).model = c.model
    ∧ (apply_prompt_stage c tp ap).model_provider_id = c.model_provider_id
    ∧ (apply_prompt_stage c tp ap).model_provider = c.model_provider
    ∧ (apply_prompt_stage c tp ap).include_plan_tool = c.include_plan_tool
    ∧ (apply_prompt_stage c tp ap).include_apply_patch_tool = c.include_apply_patch_tool := by
  cases tp with
  | none => cases ap <;> simp [apply_prompt_stage]
  | some t => cases t <;> cases ap <;> simp [apply_prompt_stage]

/-- C9: when the agent requests a provider id that is not a key of the base
config's provider map, composition still succeeds and leaves both
`model_provider_id` and `model_provider` at the base values, while the other
override fields are applied as usual — in the headless runner
(`run_workflow_step_config`) and in the UI `SwitchToAgent` handler
(`switch_to_agent_config`). -/
theorem provider_override_missing (base : Config) (s : StepComposeInput)
    (provider_id : String) (agent_model : Option String)
    (agent_apply agent_plan : Option Bool) (agent_prompt : Option String)
    (team_ctx_prompt : Option (Option String))
    (agent_mcp : List (String × McpServerCfg))
    (hs : s.provider_override = some provider_id)
    (hmiss : alookup base.model_providers provider_id = none) :
    ((run_workflow_step_config base s).model_provider_id = base.model_provider_id
      ∧ (run_workflow_step_config base s).model_provider = base.model_provider
      ∧ (run_workflow_step_config base s).model = s.model_override.getD base.model
      ∧ (run_workflow_step_config base s).include_plan_tool
          = s.include_plan.getD base.include_plan_tool
      ∧ (run_workflow_step_config base s).include_apply_patch_tool
          = s.include_apply.getD base.include_apply_patch_tool
      ∧ (run_workflow_step_config base s).base_instructions = some s.combined_prompt
      ∧ (run_workflow_step_config base s).mcp_servers = s.mcp_servers)
    ∧ ((switch_to_agent_config base agent_model (some provider_id) agent_apply
          agent_plan agent_prompt team_ctx_prompt agent_mcp).model_provider_id
          = base.model_provider_id
      ∧ (switch_to_agent_config base agent_model (some provider_id) agent_apply
          agent_plan agent_prompt team_ctx_prompt agent_mcp).model_provider
          = base.model_provider
      ∧ (switch_to_agent_config base agent_model (some provider_id) agent_apply
          agent_plan agent_prompt team_ctx_prompt agent_mcp).model
          = agent_model.getD base.model
      ∧ (switch_to_agent_config base agent_model (some provider_id) agent_apply
          agent_plan agent_prompt team_ctx_prompt agent_mcp).include_apply_patch_tool
          = agent_apply.getD base.include_apply_patch_tool
      ∧ (switch_to_agent_config base agent_model (some provider_id) agent_apply
          agent_plan agent_prompt team_ctx_prompt agent_mcp).include_plan_tool
          = agent_plan.getD base.include_plan_tool
      ∧ (switch_to_agent_config base agent_model (some provider_id) agent_apply
          agent_plan agent_prompt team_ctx_prompt agent_mcp).mcp_servers
          = agent_mcp) := by
  constructor
  · cases hm : s.model_override <;> cases hp : s.include_plan <;>
      cases ha : s.include_apply <;>
      simp [run_workflow_step_config, hs, hm, hp, ha, hmiss]
  · have hframe := apply_prompt_stage_frame
    cases hm : agent_model <;> cases ha : agent_apply <;> cases hp : agent_plan <;>
      simp [switch_to_agent_config, hm, ha, hp, hmiss, hframe]

/-- Witness for `provider_override_missing` at `c9_base` (providers contain
only `openai`) and `c9_step` (which requests `azure`). -/
theorem provider_override_missing_witness :
    c9_step.provider_override = some ("azure")
    ∧ alookup c9_base.model_providers ("azure") = none
    ∧ ((run_workflow_step_config c9_base c9_step).model_provider_id
          = c9_base.model_provider_id
        ∧ (run_workflow_step_config c9_base c9_step).model_provider
          = c9_base.model_provider
        ∧ (run_workflow_step_config c9_base c9_step).model
          = c9_step.model_override.getD c9_base.model
        ∧ (run_workflow_step_config c9_base c9_step).include_plan_tool
          = c9_step.include_plan.getD c9_base.include_plan_tool
        ∧ (run_workflow_step_config c9_base c9_step).include_apply_patch_tool
          = c9_step.include_apply.getD c9_base.include_apply_patch_tool
        ∧ (run_workflow_step_config c9_base c9_step).base_instructions
          = some c9_step.combined_prompt
        ∧ (run_workflow_step_config c9_base c9_step).mcp_servers
          = c9_step.mcp_servers)
      ∧ ((switch_to_agent_config c9_base (some ("claude")) (some ("azure")) none
            none none none []).model_provider_id = c9_base.model_provider_id
        ∧ (switch_to_agent_config c9_base (some ("claude")) (some ("azure")) none
            none none none []).model_provider = c9_base.model_provider
        ∧ (switch_to_agent_config c9_base (some ("claude")) (some ("azure")) none
            none none none []).model = (some ("claude")).getD c9_base.model
        ∧ (switch_to_agent_config c9_base (some ("claude")) (some ("azure")) none
            none none none []).include_apply_patch_tool
          = (none : Option Bool).getD c9_base.include_apply_patch_tool
        ∧ (switch_to_agent_config c9_base (some ("claude")) (some ("azure")) none
            none none none []).include_plan_tool
          = (none : Option Bool).getD c9_base.include_plan_tool
        ∧ (switch_to_agent_config c9_base (some ("claude")) (some ("azure")) none
            none none none []).mcp_servers = []) :=
  ⟨by decide, by decide,
   provider_override_missing c9_base c9_step ("azure") (some ("claude")) none none
     none none [] (by decide) (by decide)⟩

/-! ## Theorems: workflow referential integrity -/

theorem build_steps_ok (tbl : List (String × WorkflowStepToml)) (keys : List String)
    (h : ∀ key ∈ keys, good_entry (alookup tbl key) = true) :
    build_steps tbl keys = Except.ok (keys.map (step_of_key tbl)) := by
  induction keys with
  | nil => rfl
  | cons key rest ih =>
    have hk := h key (List.mem_cons_self key rest)
    have hr : ∀ k ∈ rest, good_entry (alookup tbl k) = true :=
      fun k hm => h k (List.mem_cons_of_mem key hm)
    cases hl : alookup tbl key with
    | none => rw [hl] at hk; exact absurd hk (by simp [good_entry])
    | some st =>
      rw [hl] at hk
      simp [good_entry] at hk
      rcases hk with hk | hk <;>
        simp [build_steps, hl, hk, ih hr, step_of_key, List.map_cons]

theorem build_steps_err_cons (tbl : List (String × WorkflowStepToml)) (key : String)
    (rest : List String) :
    isErrB (build_steps tbl (key :: rest)) = true
      ↔ (good_entry (alookup tbl key) = false
          ∨ isErrB (build_steps tbl rest) = true) := by
  cases hl : alookup tbl key with
  | none => simp [build_steps, hl, isErrB, good_entry]
  | some st =>
    by_cases hag : st.type = ("agent")
    · cases hrec : build_steps tbl rest <;>
        simp [build_steps, hl, hag, hrec, isErrB, good_entry]
    · by_cases htm : st.type = ("team")
      · cases hrec : build_steps tbl rest <;>
          simp [build_steps, hl, hag, htm, hrec, isErrB, good_entry]
      · simp [build_steps, hl, hag, htm, isErrB, good_entry]

theorem build_steps_err_iff (tbl : List (String × WorkflowStepToml))
    (keys : List String) :
    isErrB (build_steps tbl keys) = true
      ↔ ∃ key ∈ keys, good_entry (alookup tbl key) = false := by
  induction keys with
  | nil => simp [build_steps, isErrB]
  | cons key rest ih =>
    rw [build_steps_err_cons, ih]
    simp [List.mem_cons, or_and_right, exists_or, exists_eq_left]

theorem build_steps_first_err (tbl : List (String × WorkflowStepToml))
    (pre : List String) (key : String) (post : List String)
    (hpre : ∀ k ∈ pre, good_entry (alookup tbl k) = true)
    (hbad : good_entry (alookup tbl key) = false) :
    build_steps tbl (pre ++ key :: post)
      = Except.error (match alookup tbl key with
          | none => undefined_step_msg key
          | some st => unsupported_type_msg st.type key) := by
  induction pre with
  | nil =>
    cases hl : alookup tbl key with
    | none => simp [build_steps, hl]
    | some st =>
      rw [hl] at hbad
      simp [good_entry] at hbad
      simp [build_steps, hl, hbad.1, hbad.2]
  | cons p pre ih =>
    have hp := hpre p (List.mem_cons_self p pre)
    have hrest : ∀ k ∈ pre, good_entry (alookup tbl k) = true :=
      fun k hm => hpre k (List.mem_cons_of_mem p hm)
    cases hl : alookup tbl p with
    | none => rw [hl] at hp; exact absurd hp (by simp [good_entry])
    | some st =>
      rw [hl] at hp
      simp [good_entry] at hp
      rcases hp with hp | hp <;>
        simp [List.cons_append, build_steps, hl, hp, ih hrest]

/-- C8: resolving the `steps` list against the step table fails exactly when
some listed key is missing from the table (error `workflow step '<key>' not
defined in [step.*]`, reported for the first bad key) or the referenced
step's type is neither `agent` nor `team` (error `unsupported step type`);
otherwise it succeeds with the steps in list order, each carrying the step's
kind, id, prompt and max_turns. -/
theorem workflow_referential_integrity (tbl : List (String × WorkflowStepToml))
    (keys : List String) :
    (isErrB (build_steps tbl keys) = true
      ↔ ∃ key ∈ keys, good_entry (alookup tbl key) = false)
    ∧ ((∀ key ∈ keys, good_entry (alookup tbl key) = true) →
        build_steps tbl keys = Except.ok (keys.map (step_of_key tbl)))
    ∧ (∀ pre key post, keys = pre ++ key :: post →
        (∀ k ∈ pre, good_entry (alookup tbl k) = true) →
        good_entry (alookup tbl key) = false →
        build_steps tbl keys = Except.error (match alookup tbl key with
          | none => undefined_step_msg key
          | some st => unsupported_type_msg st.type key)) :=
  ⟨build_steps_err_iff tbl keys, build_steps_ok tbl keys,
   fun pre key post he h1 h2 => he ▸ build_steps_first_err tbl pre key post h1 h2⟩

/-- Witness for `workflow_referential_integrity` at the concrete table
`c8_tbl`: the good key list succeeds in order, a missing key yields the
undefined-step error, and a `robot` type yields the unsupported-type error. -/
theorem workflow_referential_integrity_witness :
    (∀ key ∈ (["plan", "implement"] : List String),
        good_entry (alookup c8_tbl key) = true)
    ∧ build_steps c8_tbl (["plan", "implement"])
        = Except.ok ((["plan", "implement"]).map (step_of_key c8_tbl))
    ∧ good_entry (alookup c8_tbl ("missing")) = false
    ∧ build_steps c8_tbl (["missing"]) = Except.error (undefined_step_msg ("missing"))
    ∧ good_entry (alookup c8_tbl ("bogus")) = false
    ∧ build_steps c8_tbl (["bogus"])
        = Except.error (unsupported_type_msg ("robot") ("bogus")) := by
  have h := workflow_referential_integrity c8_tbl (["plan", "implement"])
  have h2 := workflow_referential_integrity c8_tbl (["missing"])
  have h3 := workflow_referential_integrity c8_tbl (["bogus"])
  refine ⟨by decide, h.2.1 (by decide), by decide, ?_, by decide, ?_⟩
  · exact h2.2.2 [] ("missing") [] rfl (by decide) (by decide)
  · exact h3.2.2 [] ("bogus") [] rfl (by decide) (by decide)

/-! ## Counting lemmas for round-robin fairness -/

theorem ceil_div_succ (N k : ℕ) (hk : 0 < k) (h : N % k ≠ 0) :
    (N + k - 1) / k = N / k + 1 := by
  have hmod := Nat.div_add_mod N k
  have hr : N % k < k := Nat.mod_lt _ hk
  have e1 : N + k - 1 = k * (N / k) + ((N % k - 1) + k) := by omega
  rw [e1, Nat.mul_add_div hk, Nat.add_div_right _ hk,
      Nat.div_eq_of_lt (show N % k - 1 < k by omega)]

theorem add_shift_mod (k s j : ℕ) (hk : 0 < k) (hj : j < k) :
    (s + (j + k - s % k) % k) % k = j := by
  have hs : s % k < k := Nat.mod_lt _ hk
  have h1 : s % k ≤ j + k := by omega
  calc (s + (j + k - s % k) % k) % k
      = (s % k + (j + k - s % k) % k) % k := (Nat.mod_add_mod s k _).symm
    _ = (s % k + (j + k - s % k)) % k := Nat.add_mod_mod _ _ _
    _ = (j + k) % k := by rw [Nat.add_sub_cancel' h1]
    _ = j % k := Nat.add_mod_right j k
    _ = j := Nat.mod_eq_of_lt hj

theorem shift_mod_eq_iff (k s j i : ℕ) (hk : 0 < k) (hj : j < k) :
    ((s + i) % k = j) ↔ (i % k = (j + k - s % k) % k) := by
  have hd : (j + k - s % k) % k < k := Nat.mod_lt _ hk
  have hkey : (s + (j + k - s % k) % k) % k = j := add_shift_mod k s j hk hj
  constructor
  · intro h
    have h2 : (s + i) % k = (s + (j + k - s % k) % k) % k := by rw [h, hkey]
    have h3 : i ≡ (j + k - s % k) % k [MOD k] := Nat.ModEq.add_left_cancel' s h2
    calc i % k = ((j + k - s % k) % k) % k := h3
      _ = (j + k - s % k) % k := Nat.mod_eq_of_lt hd
  · intro h
    have h3 : i ≡ (j + k - s % k) % k [MOD k] := by
      show i % k = ((j + k - s % k) % k) % k
      rw [h, Nat.mod_eq_of_lt hd]
    have h4 := Nat.ModEq.add_left s h3
    calc (s + i) % k = (s + (j + k - s % k) % k) % k := h4
      _ = j := hkey

theorem count_range_mod (k s j N : ℕ) (hk : 0 < k) (hj : j < k) :
    (List.range N).countP (fun i => decide ((s + i) % k = j))
      = N / k + (if (j + k - s % k) % k < N % k then 1 else 0) := by
  have hd : (j + k - s % k) % k < k := Nat.mod_lt _ hk
  have h1 : (List.range N).countP (fun i => decide ((s + i) % k = j))
      = (List.range N).countP (fun i => decide (i ≡ (j + k - s % k) % k [MOD k])) := by
    apply List.countP_congr
    intro i _
    have hiff : ((s + i) % k = j) ↔ (i ≡ (j + k - s % k) % k [MOD k]) := by
      rw [shift_mod_eq_iff k s j i hk hj]
      show _ ↔ i % k = ((j + k - s % k) % k) % k
      rw [Nat.mod_eq_of_lt hd]
    simpa using hiff
  have h2 : (List.range N).countP (fun i => decide (i ≡ (j + k - s % k) % k [MOD k]))
      = Nat.count (· ≡ (j + k - s % k) % k [MOD k]) N := rfl
  rw [h1, h2, Nat.count_modEq_card N hk ((j + k - s % k) % k), Nat.mod_eq_of_lt hd]

theorem count_range_mod_cases (k s j N : ℕ) (hk : 0 < k) (hj : j < k) :
    (List.range N).countP (fun i => decide ((s + i) % k = j)) = N / k
    ∨ (List.range N).countP (fun i => decide ((s + i) % k = j)) = (N + k - 1) / k := by
  rw [count_range_mod k s j N hk hj]
  by_cases h : (j + k - s % k) % k < N % k
  · right
    rw [if_pos h, ceil_div_succ N k hk (by omega)]
  · left
    rw [if_neg h]
    exact Nat.add_zero _

/-! ## Theorems: team router, round-robin branch -/

theorem getD_inj_of_nodup (l : List String) (hnd : l.Nodup) (i j : Nat)
    (hi : i < l.length) (hj : j < l.length)
    (h : l.getD i ("") = l.getD j ("")) : i = j := by
  have e1 : l.getD i ("") = l.get ⟨i, hi⟩ := by
    simp [List.getD, List.getElem?_eq_getElem hi, List.get_eq_getElem]
  have e2 : l.getD j ("") = l.get ⟨j, hj⟩ := by
    simp [List.getD, List.getElem?_eq_getElem hj, List.get_eq_getElem]
  rw [e1, e2] at h
  have := (List.Nodup.get_inj_iff hnd).mp h
  simpa using this

theorem router_step_round_robin (tc : TeamContext) (t : String)
    (hmode : eqIgnoreAsciiCase (tc.mode.getD ("round_robin")) ("selector") = false)
    (hmem : tc.members ≠ [])
    (hgate : gate_limit_hit tc = none)
    (huntag : startsWithTag t = false) :
    router_step tc t = (RouterResult.dispatchSwitch
        (tc.members.getD (tc.next_idx % tc.members.length) ("")) t,
      { tc with next_idx := (tc.next_idx + 1) % tc.members.length,
                turns_taken := tc.turns_taken + 1 }) := by
  have hlen : 0 < tc.members.length := List.length_pos.mpr hmem
  have hidx : tc.next_idx % tc.members.length < tc.members.length := Nat.mod_lt _ hlen
  have hne : tc.members.isEmpty = false := by
    simp [List.isEmpty_eq_false, hmem]
  simp [router_step, huntag, hgate, route_select, hmode, hne, List.getD,
        List.getElem?_eq_getElem hidx]

theorem router_run_round_robin (tc : TeamContext) (ts : List String)
    (hmode : eqIgnoreAsciiCase (tc.mode.getD ("round_robin")) ("selector") = false)
    (hmem : tc.members ≠ [])
    (hidx : tc.next_idx < tc.members.length)
    (hgate : ∀ lim, tc.max_turns = some lim → tc.turns_taken + ts.length ≤ lim)
    (huntag : ∀ t ∈ ts, startsWithTag t = false) :
    (router_run tc ts).1 = (List.range ts.length).map (fun i =>
        RouterResult.dispatchSwitch
          (tc.members.getD ((tc.next_idx + i) % tc.members.length) (""))
          (ts.getD i ("")))
    ∧ (router_run tc ts).2 = { tc with
        next_idx := (tc.next_idx + ts.length) % tc.members.length,
        turns_taken := tc.turns_taken + ts.length } := by
  induction ts generalizing tc with
  | nil =>
    constructor
    · rfl
    · simp [router_run, Nat.mod_eq_of_lt hidx]
  | cons t ts ih =>
    have hlen : 0 < tc.members.length := List.length_pos.mpr hmem
    have hg1 : gate_limit_hit tc = none := by
      cases hmx : tc.max_turns with
      | none => simp [gate_limit_hit, hmx]
      | some lim =>
        have := hgate lim hmx
        simp only [List.length_cons] at this
        simp [gate_limit_hit, hmx]
        omega
    have hstep := router_step_round_robin tc t hmode hmem hg1
      (huntag t (List.mem_cons_self t ts))
    have huntag2 : ∀ u ∈ ts, startsWithTag u = false :=
      fun u hu => huntag u (List.mem_cons_of_mem t hu)
    obtain ⟨ih1, ih2⟩ := ih
      { tc with
        next_idx := (tc.next_idx + 1) % tc.members.length,
        turns_taken := tc.turns_taken + 1 }
      hmode hmem (Nat.mod_lt _ hlen)
      (by intro lim hl
          have hl2 := hgate lim hl
          simp only [List.length_cons] at hl2
          show tc.turns_taken + 1 + ts.length ≤ lim
          omega)
      huntag2
    constructor
    · have hrr : (router_run tc (t :: ts)).1
          = (router_step tc t).1 :: (router_run (router_step tc t).2 ts).1 := rfl
      rw [hrr, hstep]
      simp only [ih1]
      simp only [List.length_cons, List.range_succ_eq_map, List.map_cons, List.map_map]
      congr 1
      simp
      intro i hi
      have e : tc.next_idx + 1 + i = tc.next_idx + (i + 1) := by omega
      rw [e]
    · have hrr2 : (router_run tc (t :: ts)).2
          = (router_run (router_step tc t).2 ts).2 := rfl
      rw [hrr2, hstep]
      simp only [ih2]
      simp only [List.length_cons]
      congr 1
      · rw [Nat.mod_add_mod]
        congr 1
        omega
      · omega

/-- C6: round-robin routing is deterministic given `next_idx` — the i-th
routed untagged input dispatches `SwitchToAgent` to
`members[(next_idx + i) % k]` and the context advances `next_idx` by one
modulo `k` per message — and over `N` consecutive routed messages each member
of a duplicate-free team of size `k` is selected either `⌊N/k⌋` or `⌈N/k⌉`
times.  In scenario S5 (members `[a,b,c]`, `next_idx = 2`, three untagged
inputs) the dispatch order is `c, a, b` and `next_idx` ends at 2. -/
theorem round_robin_fairness :
    (∀ (tc : TeamContext) (ts : List String) (j : Nat),
      eqIgnoreAsciiCase (tc.mode.getD ("round_robin")) ("selector") = false →
      tc.members ≠ [] → tc.next_idx < tc.members.length → tc.max_turns = none →
      tc.members.Nodup → j < tc.members.length →
      (∀ t ∈ ts, startsWithTag t = false) →
      ((router_run tc ts).1 = (List.range ts.length).map (fun i =>
          RouterResult.dispatchSwitch
            (tc.members.getD ((tc.next_idx + i) % tc.members.length) (""))
            (ts.getD i ("")))
        ∧ (router_run tc ts).2.next_idx
            = (tc.next_idx + ts.length) % tc.members.length
        ∧ (count_dispatch_to (tc.members.getD j ("")) (router_run tc ts).1
              = ts.length / tc.members.length
            ∨ count_dispatch_to (tc.members.getD j ("")) (router_run tc ts).1
              = (ts.length + tc.members.length - 1) / tc.members.length)))
    ∧ (router_run s5_team (["1", "2", "3"])).1
        = [RouterResult.dispatchSwitch ("c") ("1"),
           RouterResult.dispatchSwitch ("a") ("2"),
           RouterResult.dispatchSwitch ("b") ("3")]
    ∧ (router_run s5_team (["1", "2", "3"])).2.next_idx = 2 := by
  refine ⟨?_, by decide, by decide⟩
  intro tc ts j hmode hmem hidx hmax hnd hj huntag
  have hlen : 0 < tc.members.length := List.length_pos.mpr hmem
  have hgate : ∀ lim, tc.max_turns = some lim → tc.turns_taken + ts.length ≤ lim := by
    intro lim hl
    rw [hmax] at hl
    cases hl
  obtain ⟨h1, h2⟩ := router_run_round_robin tc ts hmode hmem hidx hgate huntag
  refine ⟨h1, by rw [h2], ?_⟩
  rw [h1]
  have hcong : ∀ i ∈ List.range ts.length,
      ((fun r => match r with
          | RouterResult.dispatchSwitch n _ => n == tc.members.getD j ("")
          | _ => false)
        ∘ (fun i => RouterResult.dispatchSwitch
            (tc.members.getD ((tc.next_idx + i) % tc.members.length) (""))
            (ts.getD i ("")))) i = true
        ↔ (fun i => decide ((tc.next_idx + i) % tc.members.length = j)) i = true := by
    intro i _
    simp only [Function.comp_apply, beq_iff_eq, decide_eq_true_eq]
    constructor
    · intro h
      exact getD_inj_of_nodup tc.members hnd _ j (Nat.mod_lt _ hlen) hj h
    · intro h
      rw [h]
  simp only [count_dispatch_to, List.countP_map]
  rw [List.countP_congr hcong]
  exact count_range_mod_cases tc.members.length tc.next_idx j ts.length hlen hj

/-- Witness for `round_robin_fairness` at scenario S5: member `a` (index 0)
is dispatched once out of three messages, which is `⌈3/3⌉ = ⌊3/3⌋ = 1`. -/
theorem round_robin_fairness_witness :
    (eqIgnoreAsciiCase (s5_team.mode.getD ("round_robin")) ("selector") = false
      ∧ s5_team.members ≠ [] ∧ s5_team.next_idx < s5_team.members.length
      ∧ s5_team.max_turns = none ∧ s5_team.members.Nodup
      ∧ 0 < s5_team.members.length
      ∧ (∀ t ∈ (["1", "2", "3"] : List String), startsWithTag t = false))
    ∧ ((router_run s5_team (["1", "2", "3"])).1
        = (List.range (["1", "2", "3"] : List String).length).map (fun i =>
            RouterResult.dispatchSwitch
              (s5_team.members.getD ((s5_team.next_idx + i) % s5_team.members.length) (""))
              ((["1", "2", "3"] : List String).getD i ("")))
      ∧ (router_run s5_team (["1", "2", "3"])).2.next_idx
          = (s5_team.next_idx + (["1", "2", "3"] : List String).length)
              % s5_team.members.length
      ∧ (count_dispatch_to (s5_team.members.getD 0 (""))
            (router_run s5_team (["1", "2", "3"])).1
            = (["1", "2", "3"] : List String).length / s5_team.members.length
          ∨ count_dispatch_to (s5_team.members.getD 0 (""))
              (router_run s5_team (["1", "2", "3"])).1
              = ((["1", "2", "3"] : List String).length + s5_team.members.length - 1)
                  / s5_team.members.length)) :=
  ⟨⟨by decide, by decide, by decide, rfl, by decide, by decide, by decide⟩,
   round_robin_fairness.1 s5_team (["1", "2", "3"]) 0 (by decide) (by decide)
     (by decide) rfl (by decide) (by decide) (by decide)⟩

/-! ## Theorems: max_turns gate -/

/-- C2 (amended): the `max_turns` gate fires, in every mode, exactly on
`turns_taken ≥ max_turns` — and `turns_taken` counts only messages routed by
the non-selector (round-robin) branch.  Part 1: whenever the limit is reached,
an untagged input yields only the info line and leaves the context unchanged,
regardless of mode.  Part 2: starting from `turns_taken = 0` in a
non-selector team, after `max_turns` routed messages (each a dispatch) the
next untagged input yields only the info line. -/
theorem max_turns_gate :
    (∀ (tc : TeamContext) (text : String) (lim : Nat),
      tc.max_turns = some lim → lim ≤ tc.turns_taken → startsWithTag text = false →
      router_step tc text = (RouterResult.info (gate_message tc.name lim), tc))
    ∧ (∀ (tc : TeamContext) (ts : List String) (text : String) (lim : Nat),
      tc.max_turns = some lim →
      eqIgnoreAsciiCase (tc.mode.getD ("round_robin")) ("selector") = false →
      tc.members ≠ [] → tc.next_idx < tc.members.length →
      tc.turns_taken = 0 → ts.length = lim →
      (∀ t ∈ ts, startsWithTag t = false) → startsWithTag text = false →
      ((∀ r ∈ (router_run tc ts).1, ∃ name ip,
          r = RouterResult.dispatchSwitch name ip)
        ∧ router_step (router_run tc ts).2 text
            = (RouterResult.info (gate_message tc.name lim), (router_run tc ts).2))) := by
  constructor
  · intro tc text lim hmax hle htext
    simp [router_step, htext, gate_limit_hit, hmax, hle]
  · intro tc ts text lim hmax hmode hmem hidx hturns hlen huntag htext
    have hgate : ∀ l2, tc.max_turns = some l2 → tc.turns_taken + ts.length ≤ l2 := by
      intro l2 hl2
      rw [hmax] at hl2
      injection hl2 with h2
      omega
    obtain ⟨h1, h2⟩ := router_run_round_robin tc ts hmode hmem hidx hgate huntag
    constructor
    · rw [h1]
      intro r hr
      obtain ⟨i, _, rfl⟩ := List.mem_map.mp hr
      exact ⟨_, _, rfl⟩
    · rw [h2]
      simp [router_step, htext, gate_limit_hit, hmax, hturns, hlen]

/-- Witness for `max_turns_gate` at scenario S6: team `[a]`, `max_turns = 1`;
the single input `hi` is dispatched, and the next untagged input `again`
yields only the reached-max_turns info line. -/
theorem max_turns_gate_witness :
    (s6_team.max_turns = some 1
      ∧ eqIgnoreAsciiCase (s6_team.mode.getD ("round_robin")) ("selector") = false
      ∧ s6_team.members ≠ [] ∧ s6_team.next_idx < s6_team.members.length
      ∧ s6_team.turns_taken = 0 ∧ (["hi"] : List String).length = 1
      ∧ (∀ t ∈ (["hi"] : List String), startsWithTag t = false)
      ∧ startsWithTag ("again") = false)
    ∧ ((∀ r ∈ (router_run s6_team (["hi"])).1, ∃ name ip,
          r = RouterResult.dispatchSwitch name ip)
      ∧ router_step (router_run s6_team (["hi"])).2 ("again")
          = (RouterResult.info (gate_message s6_team.name 1),
             (router_run s6_team (["hi"])).2)) :=
  ⟨⟨rfl, by decide, by decide, by decide, rfl, rfl, by decide, by decide⟩,
   max_turns_gate.2 s6_team (["hi"]) ("again") 1 rfl (by decide) (by decide)
     (by decide) rfl rfl (by decide) (by decide)⟩

set_option maxRecDepth 4096 in
/-- C2 counterexample: in a selector-mode team with `max_turns = 1`, the
first untagged input is routed through the selector (and, with the auxiliary
conversation answering `a`, dispatches `SwitchToAgent`), yet the context is
left unchanged (`turns_taken` stays 0), so the second untagged input is again
routed through the selector — it is not the info line, and with the auxiliary
conversation answering `b` it dispatches `SwitchToAgent` again. -/
theorem max_turns_gate_counterexample :
    (router_step c2_sel_team ("one")).1
        = RouterResult.selectorSpawn ("S")
            (build_selector_prompt ("dev-team") (["a", "b"]) (some ("P")) ("one")
              false (some ("b")))
            ("one")
    ∧ selector_task_outcome ([EventMsg.agentMessage ("a")]) ("one")
        = AppAction.switchToAgent ("a") (some ("one"))
    ∧ (router_step c2_sel_team ("one")).2 = c2_sel_team
    ∧ c2_sel_team.max_turns = some 1
    ∧ (router_step c2_sel_team ("one")).2.turns_taken = 0
    ∧ (router_step ((router_step c2_sel_team ("one")).2) ("two")).1
        = RouterResult.selectorSpawn ("S")
            (build_selector_prompt ("dev-team") (["a", "b"]) (some ("P")) ("two")
              false (some ("b")))
            ("two")
    ∧ (∀ m, (router_step ((router_step c2_sel_team ("one")).2) ("two")).1
          ≠ RouterResult.info m)
    ∧ selector_task_outcome ([EventMsg.agentMessage ("b")]) ("two")
        = AppAction.switchToAgent ("b") (some ("two")) := by
  refine ⟨by decide, by decide, by decide, rfl, by decide, by decide, ?_, by decide⟩
  intro m h
  rw [(by decide : (router_step ((router_step c2_sel_team ("one")).2) ("two")).1
      = RouterResult.selectorSpawn ("S")
          (build_selector_prompt ("dev-team") (["a", "b"]) (some ("P")) ("two")
            false (some ("b")))
          ("two"))] at h
  exact RouterResult.noConfusion h

/-! ## Theorems: selector branch frame property -/

/-- C10: when the gate is open and the mode is `selector` with a configured
selector model, the router spawns the auxiliary selector conversation with
the built prompt and leaves the team context completely unchanged — in
particular `next_idx` and `turns_taken` — and the last speaker passed to the
prompt is `members[(next_idx + len - 1) % len]` for a non-empty member list,
even before any member has spoken. -/
theorem selector_frame (tc : TeamContext) (text selector_model : String)
    (htext : startsWithTag text = false)
    (hgate : gate_limit_hit tc = none)
    (hmode : eqIgnoreAsciiCase (tc.mode.getD ("round_robin")) ("selector") = true)
    (hsm : tc.selector_model = some selector_model) :
    router_step tc text
      = (RouterResult.selectorSpawn selector_model
          (build_selector_prompt tc.name tc.members tc.selector_prompt text
            tc.allow_repeated_speaker
            (tc.members.get? (if tc.next_idx = 0 then tc.members.length - 1
              else tc.next_idx - 1)))
          text, tc)
    ∧ (router_step tc text).2 = tc
    ∧ (tc.members ≠ [] → tc.next_idx < tc.members.length →
        tc.members.get? (if tc.next_idx = 0 then tc.members.length - 1
            else tc.next_idx - 1)
          = some (tc.members.getD
              ((tc.next_idx + tc.members.length - 1) % tc.members.length) (""))) := by
  have hmain : router_step tc text
      = (RouterResult.selectorSpawn selector_model
          (build_selector_prompt tc.name tc.members tc.selector_prompt text
            tc.allow_repeated_speaker
            (tc.members.get? (if tc.next_idx = 0 then tc.members.length - 1
              else tc.next_idx - 1)))
          text, tc) := by
    simp [router_step, htext, hgate, route_select, hmode, hsm]
  refine ⟨hmain, by rw [hmain], ?_⟩
  intro hmem hidx
  have hlen : 0 < tc.members.length := List.length_pos.mpr hmem
  rcases Nat.eq_zero_or_pos tc.next_idx with h0 | hpos
  · rw [h0]
    simp only [if_pos rfl]
    have e : (0 + tc.members.length - 1) % tc.members.length
        = tc.members.length - 1 := by
      rw [Nat.zero_add]
      exact Nat.mod_eq_of_lt (by omega)
    rw [e]
    have hl : tc.members.length - 1 < tc.members.length := by omega
    simp [List.getD, List.get?_eq_getElem?, List.getElem?_eq_getElem hl]
  · have hne : tc.next_idx ≠ 0 := by omega
    rw [if_neg hne]
    have e : (tc.next_idx + tc.members.length - 1) % tc.members.length
        = tc.next_idx - 1 := by
      have e2 : tc.next_idx + tc.members.length - 1
          = (tc.next_idx - 1) + tc.members.length := by omega
      rw [e2, Nat.add_mod_right]
      exact Nat.mod_eq_of_lt (by omega)
    rw [e]
    have hl : tc.next_idx - 1 < tc.members.length := by omega
    simp [List.getD, List.get?_eq_getElem?, List.getElem?_eq_getElem hl]

/-- Witness for `selector_frame` at scenario S4's context (members `[a, b]`,
`next_idx = 1`): the spawned prompt reports last speaker `a` and the context
is unchanged. -/
theorem selector_frame_witness :
    (startsWithTag ("do X") = false ∧ gate_limit_hit s4_team = none
      ∧ eqIgnoreAsciiCase (s4_team.mode.getD ("round_robin")) ("selector") = true
      ∧ s4_team.selector_model = some ("S"))
    ∧ (router_step s4_team ("do X")
        = (RouterResult.selectorSpawn ("S")
            (build_selector_prompt s4_team.name s4_team.members
              s4_team.selector_prompt ("do X") s4_team.allow_repeated_speaker
              (s4_team.members.get? (if s4_team.next_idx = 0
                then s4_team.members.length - 1 else s4_team.next_idx - 1)))
            ("do X"), s4_team)
      ∧ (router_step s4_team ("do X")).2 = s4_team
      ∧ (s4_team.members ≠ [] → s4_team.next_idx < s4_team.members.length →
          s4_team.members.get? (if s4_team.next_idx = 0
              then s4_team.members.length - 1 else s4_team.next_idx - 1)
            = some (s4_team.members.getD
                ((s4_team.next_idx + s4_team.members.length - 1)
                  % s4_team.members.length) ("")))) :=
  ⟨⟨by decide, rfl, by decide, rfl⟩,
   selector_frame s4_team ("do X") ("S") (by decide) rfl (by decide) rfl⟩

/-! ## Theorems: workflow supervisor -/

theorem iter_task_complete_none (n : Nat) : iter_task_complete none n = (none, []) := by
  induction n with
  | zero => rfl
  | succ n ih => simp [iter_task_complete, on_codex_event, ih]

theorem start_current_no_info (ctx : WorkflowContext)
    (hkinds : ∀ st ∈ ctx.steps, st.kind = ("agent") ∨ st.kind = ("team")) :
    (start_current_workflow_step (some ctx)).countP isInfoAction = 0 := by
  by_cases h : ctx.index < ctx.steps.length
  · have hstep := hkinds (ctx.steps[ctx.index]) (List.getElem_mem h)
    rcases hstep with hk | hk <;>
      simp [start_current_workflow_step, h, hk, isInfoAction]
  · simp [start_current_workflow_step, h]

theorem iter_task_complete_spec (n : Nat) (ctx : WorkflowContext)
    (hidx : ctx.index < ctx.steps.length)
    (hkinds : ∀ st ∈ ctx.steps, st.kind = ("agent") ∨ st.kind = ("team")) :
    (iter_task_complete (some ctx) n).1
        = (if ctx.index + n < ctx.steps.length
            then some { ctx with index := ctx.index + n } else none)
    ∧ ((iter_task_complete (some ctx) n).2.countP isInfoAction
        = if ctx.steps.length ≤ ctx.index + n then 1 else 0) := by
  induction n generalizing ctx with
  | zero =>
    constructor
    · rw [if_pos (by omega)]
      simp [iter_task_complete]
    · rw [if_neg (by omega)]
      rfl
  | succ n ih =>
    have hadv : on_codex_event (some ctx) (EventMsg.taskComplete none)
        = advance_workflow (some ctx) := rfl
    by_cases h1 : ctx.index + 1 < ctx.steps.length
    · have hctx1 : advance_workflow (some ctx)
          = (some { ctx with index := ctx.index + 1 },
             start_current_workflow_step (some { ctx with index := ctx.index + 1 })) := by
        simp [advance_workflow, h1]
      obtain ⟨ihc, iha⟩ := ih { ctx with index := ctx.index + 1 } h1 hkinds
      have e : ctx.index + 1 + n = ctx.index + (n + 1) := by omega
      constructor
      · show (iter_task_complete
            (on_codex_event (some ctx) (EventMsg.taskComplete none)).1 n).1 = _
        rw [hadv, hctx1]
        rw [ihc]
        simp [e]
      · show ((on_codex_event (some ctx) (EventMsg.taskComplete none)).2
            ++ (iter_task_complete
                (on_codex_event (some ctx) (EventMsg.taskComplete none)).1 n).2).countP
            isInfoAction = _
        rw [hadv, hctx1]
        simp only [List.countP_append, iha,
          start_current_no_info { ctx with index := ctx.index + 1 } hkinds]
        rw [e]
        simp
    · have h2 : ctx.index + 1 = ctx.steps.length := by omega
      have hctx1 : advance_workflow (some ctx)
          = (none, [AppAction.infoLine (workflow_completed_msg ctx.name),
                    AppAction.requestRedraw]) := by
        simp [advance_workflow, h1]
      constructor
      · show (iter_task_complete
            (on_codex_event (some ctx) (EventMsg.taskComplete none)).1 n).1 = _
        rw [hadv, hctx1]
        simp [iter_task_complete_none n, if_neg (by omega : ¬ ctx.index + (n + 1) < ctx.steps.length)]
      · show ((on_codex_event (some ctx) (EventMsg.taskComplete none)).2
            ++ (iter_task_complete
                (on_codex_event (some ctx) (EventMsg.taskComplete none)).1 n).2).countP
            isInfoAction = _
        rw [hadv, hctx1]
        simp [iter_task_complete_none n, isInfoAction,
          if_pos (by omega : ctx.steps.length ≤ ctx.index + (n + 1))]

/-- C7: while a workflow context is active (index in range), every
`TaskComplete` received by the dispatcher increments the index by exactly one;
while the new index is below the step count the next step is started, and the
context clears exactly once — exactly when the index reaches the step count —
at which point the completion info line is emitted (iterating over any number
of `TaskComplete` events, the completion line appears exactly once as soon as
the step count is reached, and never before). -/
theorem workflow_advance_spec (ctx : WorkflowContext) (m : Option String) (n : Nat)
    (hidx : ctx.index < ctx.steps.length)
    (hkinds : ∀ st ∈ ctx.steps, st.kind = ("agent") ∨ st.kind = ("team")) :
    ((on_codex_event (some ctx) (EventMsg.taskComplete m)).1
        = if ctx.index + 1 < ctx.steps.length
            then some { ctx with index := ctx.index + 1 } else none)
    ∧ ((on_codex_event (some ctx) (EventMsg.taskComplete m)).1 = none
        ↔ ctx.index + 1 = ctx.steps.length)
    ∧ (ctx.index + 1 < ctx.steps.length →
        (on_codex_event (some ctx) (EventMsg.taskComplete m)).2
          = start_current_workflow_step (some { ctx with index := ctx.index + 1 }))
    ∧ (ctx.index + 1 = ctx.steps.length →
        (on_codex_event (some ctx) (EventMsg.taskComplete m)).2
          = [AppAction.infoLine (workflow_completed_msg ctx.name),
             AppAction.requestRedraw])
    ∧ ((iter_task_complete (some ctx) n).1
        = if ctx.index + n < ctx.steps.length
            then some { ctx with index := ctx.index + n } else none)
    ∧ ((iter_task_complete (some ctx) n).2.countP isInfoAction
        = if ctx.steps.length ≤ ctx.index + n then 1 else 0) := by
  have hadv : on_codex_event (some ctx) (EventMsg.taskComplete m)
      = advance_workflow (some ctx) := rfl
  obtain ⟨hi1, hi2⟩ := iter_task_complete_spec n ctx hidx hkinds
  by_cases h1 : ctx.index + 1 < ctx.steps.length
  · refine ⟨?_, ?_, ?_, ?_, hi1, hi2⟩
    · rw [hadv]
      simp [advance_workflow, h1]
    · rw [hadv]
      simp [advance_workflow, h1]
      omega
    · intro _
      rw [hadv]
      simp [advance_workflow, h1]
    · intro h2
      omega
  · have h2 : ctx.index + 1 = ctx.steps.length := by omega
    refine ⟨?_, ?_, ?_, ?_, hi1, hi2⟩
    · rw [hadv, if_neg h1]
      simp [advance_workflow, h1]
    · rw [hadv]
      simp [advance_workflow, h1, h2]
    · intro hcon
      omega
    · intro _
      rw [hadv]
      simp [advance_workflow, h1]

/-- Witness for `workflow_advance_spec` at the two-step context `c7_ctx`
(index 0) with two `TaskComplete` events: the first advances to index 1 and
starts the second step; after two events the context has cleared and the
completion line appears exactly once. -/
theorem workflow_advance_spec_witness :
    (c7_ctx.index < c7_ctx.steps.length
      ∧ (∀ st ∈ c7_ctx.steps, st.kind = ("agent") ∨ st.kind = ("team")))
    ∧ (((on_codex_event (some c7_ctx) (EventMsg.taskComplete none)).1
        = if c7_ctx.index + 1 < c7_ctx.steps.length
            then some { c7_ctx with index := c7_ctx.index + 1 } else none)
      ∧ ((on_codex_event (some c7_ctx) (EventMsg.taskComplete none)).1 = none
          ↔ c7_ctx.index + 1 = c7_ctx.steps.length)
      ∧ (c7_ctx.index + 1 < c7_ctx.steps.length →
          (on_codex_event (some c7_ctx) (EventMsg.taskComplete none)).2
            = start_current_workflow_step (some { c7_ctx with index := c7_ctx.index + 1 }))
      ∧ (c7_ctx.index + 1 = c7_ctx.steps.length →
          (on_codex_event (some c7_ctx) (EventMsg.taskComplete none)).2
            = [AppAction.infoLine (workflow_completed_msg c7_ctx.name),
               AppAction.requestRedraw])
      ∧ ((iter_task_complete (some c7_ctx) 2).1
          = if c7_ctx.index + 2 < c7_ctx.steps.length
              then some { c7_ctx with index := c7_ctx.index + 2 } else none)
      ∧ ((iter_task_complete (some c7_ctx) 2).2.countP isInfoAction
          = if c7_ctx.steps.length ≤ c7_ctx.index + 2 then 1 else 0)) :=
  ⟨⟨by decide, by decide⟩,
   workflow_advance_spec c7_ctx none 2 (by decide) (by decide)⟩

end Codex
